import Mathlib

/-!
Verification development for the Q-learning SQL optimization engine
(`lib/rl/qlearning.ts`, `lib/rl/experience.ts`, `lib/rl/reward.ts`,
`lib/rl/actions.ts`, `lib/rl/optimizer.ts`, `lib/objective/validate.ts`).

Conventions of the shallow embedding:
* JavaScript numbers are modelled exactly: plain arithmetic on rationals
  (`ℚ`), and, where the code can produce `-Infinity` / `NaN`
  (`Math.max(...[])` in `updateQValue`), by the inductive type `JSVal`
  mirroring IEEE special-value propagation for the operations the code uses.
* JavaScript `Map` objects are modelled as insertion-ordered association
  lists; `Map.set` updates in place or appends, matching JS iteration order.
* The process-global mutable state (Q-table, experience buffer, config) is
  threaded explicitly; external effects (the LLM generator callback, the
  evaluator callback, `Math.random()`, `crypto` ids, timestamps, the md5
  objective hash) are supplied by an `Env` record of oracles.
* All functions are total and executable; exceptions cannot occur in the
  embedded fragment, mirroring the straight-line TypeScript they come from.
-/

namespace RLSql

/-- JS number values as produced by the arithmetic in `qlearning.ts`:
finite rationals plus the IEEE special values that `Math.max(...[])`
(`-Infinity`) and arithmetic on it can produce. -/
inductive JSVal where
  | num (q : ℚ)
  | negInf
  | posInf
  | nan
deriving DecidableEq, Repr

namespace JSVal

/-- JS unary minus. -/
def jneg : JSVal → JSVal
  | num q => num (-q)
  | negInf => posInf
  | posInf => negInf
  | nan => nan

/-- JS addition with IEEE special-value propagation. -/
def jadd : JSVal → JSVal → JSVal
  | nan, _ => nan
  | _, nan => nan
  | num a, num b => num (a + b)
  | num _, negInf => negInf
  | num _, posInf => posInf
  | negInf, num _ => negInf
  | posInf, num _ => posInf
  | negInf, negInf => negInf
  | posInf, posInf => posInf
  | negInf, posInf => nan
  | posInf, negInf => nan

/-- JS subtraction. -/
def jsub (a b : JSVal) : JSVal := jadd a (jneg b)

/-- JS multiplication with IEEE special-value propagation
(`0 * Infinity = NaN`). -/
def jmul : JSVal → JSVal → JSVal
  | nan, _ => nan
  | _, nan => nan
  | num a, num b => num (a * b)
  | num a, negInf => if a = 0 then nan else if 0 < a then negInf else posInf
  | num a, posInf => if a = 0 then nan else if 0 < a then posInf else negInf
  | negInf, num a => if a = 0 then nan else if 0 < a then negInf else posInf
  | posInf, num a => if a = 0 then nan else if 0 < a then posInf else negInf
  | negInf, negInf => posInf
  | negInf, posInf => negInf
  | posInf, negInf => negInf
  | posInf, posInf => posInf

/-- `Math.max` on two values (`NaN` absorbs). -/
def jmax : JSVal → JSVal → JSVal
  | nan, _ => nan
  | _, nan => nan
  | posInf, _ => posInf
  | _, posInf => posInf
  | negInf, b => b
  | a, negInf => a
  | num a, num b => num (max a b)

/-- JS strict `>` comparison: any comparison involving `NaN` is false. -/
def jgt : JSVal → JSVal → Bool
  | nan, _ => false
  | _, nan => false
  | num a, num b => decide (b < a)
  | num _, negInf => true
  | num _, posInf => false
  | posInf, posInf => false
  | posInf, _ => true
  | negInf, _ => false

end JSVal

open JSVal

/-- Hyperparameters (`QLearningConfig` in `lib/rl/types.ts`). -/
structure QLearningConfig where
  alpha : ℚ
  gamma : ℚ
  epsilon : ℚ
  epsilonDecay : ℚ
  epsilonMin : ℚ
  maxQTableSize : ℕ
  maxExperiences : ℕ
deriving DecidableEq, Repr

/-- `DEFAULT_CONFIG` from `qlearning.ts`
(alpha 0.1, gamma 0.9, epsilon 0.2, decay 0.995, min 0.05, 10000, 1000). -/
def DEFAULT_CONFIG : QLearningConfig :=
  { alpha := 1/10
    gamma := 9/10
    epsilon := 1/5
    epsilonDecay := 199/200
    epsilonMin := 1/20
    maxQTableSize := 10000
    maxExperiences := 1000 }

/-- The Q-table: insertion-ordered map from state key to an
insertion-ordered map from action to Q-value. -/
def QTableL : Type := List (String × List (String × JSVal))

/-- Lookup in an insertion-ordered action map (JS `Map.get`). -/
def lookupA : List (String × JSVal) → String → Option JSVal
  | [], _ => none
  | (k, v) :: rest, a => if k = a then some v else lookupA rest a

/-- Lookup of a state entry (JS `Map.get` on the outer map). -/
def lookupS : QTableL → String → Option (List (String × JSVal))
  | [], _ => none
  | (k, m) :: rest, s => if k = s then some m else lookupS rest s

/-- `getInitialQValue`: slight bias toward the generator action.
(Note: the comparison is against the generic engine's literal
`"USE_GENERATOR"`; the SQL action enum uses `"llm_policy"`.) -/
def getInitialQValue (action : String) : JSVal :=
  if action = "USE_GENERATOR" then JSVal.num (1/2) else JSVal.num 0

/-- `getQValue` from `qlearning.ts`. -/
def getQValue (qt : QTableL) (stateKey action : String) : JSVal :=
  match lookupS qt stateKey with
  | none => getInitialQValue action
  | some actionMap =>
    match lookupA actionMap action with
    | none => getInitialQValue action
    | some v => v

/-- JS `Map.set` on the action map: update in place or append. -/
def setA : List (String × JSVal) → String → JSVal → List (String × JSVal)
  | [], a, v => [(a, v)]
  | (k, w) :: rest, a, v =>
    if k = a then (k, v) :: rest else (k, w) :: setA rest a v

/-- The insertion part of `setQValue`: create the state's action map if
absent, then `Map.set` the action. -/
def setQInner : QTableL → String → String → JSVal → QTableL
  | [], s, a, v => [(s, [(a, v)])]
  | (k, m) :: rest, s, a, v =>
    if k = s then (k, setA m a v) :: rest else (k, m) :: setQInner rest s a v

/-- `evictOldestEntry`: delete the first-inserted state key.  The source
guards with the key's JS truthiness (`if (firstKey)`), so an empty-string
key is never evicted. -/
def evictOldestEntry : QTableL → QTableL
  | [] => []
  | (k, m) :: rest => if k = "" then (k, m) :: rest else rest

/-- `setQValue` from `qlearning.ts`: insert, then evict the oldest entry
when the table exceeds `maxQTableSize`. -/
def setQValue (cfg : QLearningConfig) (qt : QTableL) (stateKey action : String)
    (value : JSVal) : QTableL :=
  let qt1 := setQInner qt stateKey action value
  if cfg.maxQTableSize < qt1.length then evictOldestEntry qt1 else qt1

/-- `Math.max(...applicableActions.map(a => getQValue(nextStateKey, a)))`:
fold of `Math.max` over the mapped list; the empty spread gives
`-Infinity`. -/
def maxNextQ (qt : QTableL) (nextStateKey : String)
    (applicableActions : List String) : JSVal :=
  (applicableActions.map (fun a => getQValue qt nextStateKey a)).foldl
    jmax JSVal.negInf

/-- The Bellman value computed by `updateQValue`:
`currentQ + alpha * (reward + gamma * maxNextQ - currentQ)`. -/
def bellmanNewQ (cfg : QLearningConfig) (qt : QTableL)
    (stateKey action : String) (reward : JSVal) (nextStateKey : String)
    (applicableActions : List String) : JSVal :=
  let currentQ := getQValue qt stateKey action
  let m := maxNextQ qt nextStateKey applicableActions
  jadd currentQ
    (jmul (JSVal.num cfg.alpha)
      (jsub (jadd reward (jmul (JSVal.num cfg.gamma) m)) currentQ))

/-- `updateQValue` from `qlearning.ts`. -/
def updateQValue (cfg : QLearningConfig) (qt : QTableL)
    (stateKey action : String) (reward : JSVal) (nextStateKey : String)
    (applicableActions : List String) : QTableL :=
  setQValue cfg qt stateKey action
    (bellmanNewQ cfg qt stateKey action reward nextStateKey applicableActions)

/-- Exploitation scan of `selectAction`: start from `applicable[0]` and
replace on strictly greater Q-value (ties keep the earlier action). -/
def exploitScan (qt : QTableL) (stateKey : String) (best : String × JSVal) :
    List String → String × JSVal
  | [] => best
  | a :: rest =>
    let q := getQValue qt stateKey a
    exploitScan qt stateKey (if jgt q best.2 then (a, q) else best) rest

/-- `selectAction` from `qlearning.ts`.  `r1` and `r2` are the
`Math.random()` draws; with an empty applicable list both branches yield
JS `undefined`, modelled as `none`. -/
def selectAction (qt : QTableL) (epsilon : ℚ) (r1 r2 : ℚ)
    (stateKey : String) (applicableActions : List String) : Option String :=
  if r1 < epsilon then
    let idx : ℤ := Int.floor (r2 * applicableActions.length)
    if idx < 0 then none else applicableActions.get? idx.toNat
  else
    match applicableActions with
    | [] => none
    | a0 :: _ =>
      some (exploitScan qt stateKey (a0, getQValue qt stateKey a0)
        applicableActions).1

/-- `decayEpsilon` from `qlearning.ts`:
`epsilon = max(epsilonMin, epsilon * epsilonDecay)`. -/
def decayEpsilon (cfg : QLearningConfig) : QLearningConfig :=
  { cfg with epsilon := max cfg.epsilonMin (cfg.epsilon * cfg.epsilonDecay) }

/-- Experience tuple (`lib/rl/types.ts`). -/
structure Experience where
  id : String
  stateKey : String
  action : String
  reward : ℚ
  nextStateKey : String
  terminal : Bool
  timestamp : String
  objectiveHash : String
deriving DecidableEq, Repr

/-! String analysis helpers mirroring the JS string/regex operations the
reward calculator and the action space perform.  Patterns are ASCII and
case-insensitive flags are modelled by lowercasing. -/

/-- JS `\s` for the character set this codebase manipulates. -/
def wsChar (c : Char) : Bool :=
  c = ' ' || c = '\t' || c = '\n' || c = '\r' || c = '\x0b' || c = '\x0c'

/-- JS `\w` (ASCII word character). -/
def wordChar (c : Char) : Bool :=
  (('a' ≤ c && c ≤ 'z') || ('A' ≤ c && c ≤ 'Z') ||
   ('0' ≤ c && c ≤ '9') || c = '_')

/-- Case-insensitive prefix test; the pattern is given lowercase. -/
def ciAt : List Char → List Char → Bool
  | [], _ => true
  | _ :: _, [] => false
  | p :: ps, c :: cs => p = c.toLower && ciAt ps cs

/-- Case-sensitive substring containment (JS `String.includes`). -/
def subList : List Char → List Char → Bool
  | pat, [] => pat.isEmpty
  | pat, c :: cs => pat.isPrefixOf (c :: cs) || subList pat cs

/-- `sql.includes(pat)` with both sides as given (case-sensitive). -/
def containsCS (sql pat : String) : Bool := subList pat.data sql.data

/-- `sql.toLowerCase().includes(pat)` for a lowercase literal `pat`. -/
def containsLower (sql pat : String) : Bool :=
  subList pat.data (sql.data.map Char.toLower)

/-- Length of the maximal leading whitespace run. -/
def wsRun : List Char → ℕ
  | [] => 0
  | c :: cs => if wsChar c then wsRun cs + 1 else 0

/-- JS `String.trim` on a character list. -/
def trimL (l : List Char) : List Char :=
  ((l.dropWhile wsChar).reverse.dropWhile wsChar).reverse

/-- Non-overlapping scan for `/\sjoin\s/g`, structurally recursive on a
fuel bound (the fuel never runs out when initialized with the list
length, since every step consumes at least one character). -/
def countJoinAux : ℕ → List Char → ℕ
  | 0, _ => 0
  | fuel + 1, c1 :: c2 :: c3 :: c4 :: c5 :: c6 :: rest =>
    if wsChar c1 && c2 = 'j' && c3 = 'o' && c4 = 'i' && c5 = 'n' && wsChar c6
    then 1 + countJoinAux fuel rest
    else countJoinAux fuel (c2 :: c3 :: c4 :: c5 :: c6 :: rest)
  | _ + 1, _ => 0

/-- Number of non-overlapping matches of `/\sjoin\s/g` in an already
lowercased character list (the global regex restarts after each match). -/
def countJoin (l : List Char) : ℕ := countJoinAux l.length l

/-- Lazy completion search for `/(.*?)\s+FROM/`: the minimal capture
length (no newline inside) followed by a whitespace run and `FROM`. -/
def findCompletion : List Char → Option (ℕ × ℕ)
  | [] => none
  | c :: cs =>
    let l := c :: cs
    let m := wsRun l
    if 0 < m && ciAt ['f', 'r', 'o', 'm'] (l.drop m) then some (0, m)
    else if c = '\n' || c = '\r' then none
    else (findCompletion cs).map (fun p => (p.1 + 1, p.2))

/-- Backtracking over the greedy first `\s+` of
`/SELECT\s+(.*?)\s+FROM/i`: try run lengths from `w` down to 1. -/
def tryWsA : ℕ → List Char → Option (ℕ × ℕ × ℕ)
  | 0, _ => none
  | a + 1, rest =>
    match findCompletion (rest.drop (a + 1)) with
    | some (c, m) => some (a + 1, c, m)
    | none => tryWsA a rest

/-- Attempt the whole pattern `/SELECT\s+(.*?)\s+FROM/i` at the current
position; returns `(ws1, captureLen, ws2)`. -/
def trySelectAt (l : List Char) : Option (ℕ × ℕ × ℕ) :=
  if ciAt ['s', 'e', 'l', 'e', 'c', 't'] l then
    let rest := l.drop 6
    let w := wsRun rest
    if w = 0 then none else tryWsA w rest
  else none

/-- Leftmost match of `/SELECT\s+(.*?)\s+FROM/i`: position plus the
match shape. -/
def scanSelect : List Char → Option (ℕ × (ℕ × ℕ × ℕ))
  | [] => none
  | c :: cs =>
    match trySelectAt (c :: cs) with
    | some acm => some (0, acm)
    | none => (scanSelect cs).map (fun p => (p.1 + 1, p.2))

/-- Decomposition of a string at the first `/SELECT\s+(.*?)\s+FROM/i`
match. -/
structure SelectFromMatch where
  pre : List Char
  ws1 : ℕ
  capture : List Char
  ws2 : ℕ
  post : List Char
deriving DecidableEq, Repr

/-- `sql.match(/SELECT\s+(.*?)\s+FROM/i)`, with the matched region
split out; `none` when the regex does not match. -/
def selectFromSplit (sql : String) : Option SelectFromMatch :=
  match scanSelect sql.data with
  | none => none
  | some (i, a, c, m) =>
    let l := sql.data
    some { pre := l.take i
           ws1 := a
           capture := (l.drop (i + 6 + a)).take c
           ws2 := m
           post := l.drop (i + 6 + a + c + m + 4) }

/-- `sql.replace(/SELECT\s+(.*?)\s+FROM/i, replacement)` (first match
only; the string is returned unchanged when the regex does not match). -/
def replaceSelectFrom (sql : String) (replacement : String) : String :=
  match selectFromSplit sql with
  | none => sql
  | some m => String.mk (m.pre ++ replacement.data ++ m.post)

/-- Attempt `/SELECT\s+\*\s+FROM/i` at the current position
(deterministic: both `\s+` must take their full runs). -/
def tryStarAt (l : List Char) : Option (ℕ × ℕ) :=
  if ciAt ['s', 'e', 'l', 'e', 'c', 't'] l then
    let rest := l.drop 6
    let w := wsRun rest
    let rest2 := rest.drop (w + 1)
    let m := wsRun rest2
    if 0 < w && (rest.drop w).head? = some ('*') && 0 < m &&
        ciAt ['f', 'r', 'o', 'm'] (rest2.drop m) then
      some (w, m)
    else none
  else none

/-- Leftmost match of `/SELECT\s+\*\s+FROM/i`. -/
def scanStar : List Char → Option (ℕ × (ℕ × ℕ))
  | [] => none
  | c :: cs =>
    match tryStarAt (c :: cs) with
    | some wm => some (0, wm)
    | none => (scanStar cs).map (fun p => (p.1 + 1, p.2))

/-- `sql.replace(/SELECT\s+\*\s+FROM/i, replacement)`. -/
def replaceSelectStarFrom (sql : String) (replacement : String) : String :=
  match scanStar sql.data with
  | none => sql
  | some (i, w, m) =>
    String.mk (sql.data.take i ++ replacement.data ++
      sql.data.drop (i + 6 + w + 1 + m + 4))

/-! Objective data model (`lib/objective/schema.ts`), with JS optionality
and truthiness made explicit. -/

/-- A JS value that is either a string or an array of strings (the
`identifier` and filter `value` payloads). -/
inductive Ident where
  | str (s : String)
  | arr (l : List String)
deriving DecidableEq, Repr

/-- JS `String(x)` coercion (arrays join with commas). -/
def Ident.jsString : Ident → String
  | .str s => s
  | .arr l => String.intercalate "," l

/-- JS truthiness: the empty string is falsy, every array is truthy. -/
def Ident.truthy : Ident → Bool
  | .str s => s ≠ ""
  | .arr _ => true

/-- `scope.timeframe`. -/
structure Timeframe where
  type : String
  value : String
deriving DecidableEq, Repr

/-- `scope.entity`. -/
structure EntityRef where
  type : String
  identifier : Option Ident
deriving DecidableEq, Repr

/-- An element of `scope.filters`. -/
structure FilterRef where
  field : String
  value : Ident
deriving DecidableEq, Repr

/-- `ObjectiveConfig.scope`. -/
structure Scope where
  timeframe : Option Timeframe
  entity : Option EntityRef
  filters : Option (List FilterRef)
deriving DecidableEq, Repr

/-- `ObjectiveConfig.constraints` (an absent `mustInclude` is the empty
list, matching the `|| []` defaulting at every use site). -/
structure Constraints where
  dataSource : Option String
  mustInclude : List String
deriving DecidableEq, Repr

/-- `ObjectiveConfig.loopPolicy`. -/
structure LoopPolicy where
  maxIterations : Option ℕ
deriving DecidableEq, Repr

/-- `ObjectiveConfig`, plus the `successCriteria` field that
`validateObjective` inspects on its untyped argument. -/
structure ObjectiveConfig where
  intent : String
  scope : Option Scope
  constraints : Option Constraints
  successCriteria : Option (List String)
  loopPolicy : Option LoopPolicy
deriving DecidableEq, Repr

/-- `validateObjective` from `lib/objective/validate.ts`: returns
`(valid, errors)`.  A missing intent is modelled by the empty string
(both are falsy in the source check). -/
def validateObjective (obj : ObjectiveConfig) : Bool × List String :=
  let e1 : List String := if obj.intent = "" then ["Missing objective.intent"] else []
  let e2 : List String :=
    match obj.successCriteria with
    | none => ["Missing successCriteria"]
    | some l => if l.length = 0 then ["Missing successCriteria"] else []
  let e3 : List String :=
    match obj.scope.bind (·.timeframe) with
    | none => ["Missing scope.timeframe"]
    | some _ => []
  let errors := e1 ++ e2 ++ e3
  (errors.length = 0, errors)

/-! Reward calculator (`lib/rl/reward.ts`). -/

/-- Evaluator feedback payload. -/
structure Feedback where
  code : String
  message : String
  fix : String
deriving DecidableEq, Repr

/-- Result of the pluggable evaluator callback. -/
structure EvaluationResult where
  passed : Bool
  feedback : Option Feedback
deriving DecidableEq, Repr

/-- Execution metrics parameter of `calculateReward`. -/
structure ExecutionMetrics where
  executionTime : Option ℚ
  rowCount : Option ℚ
  expectedRowCount : Option ℚ
  hasErrors : Option Bool
deriving DecidableEq, Repr

/-- Reward breakdown (`lib/rl/types.ts`).  The human-readable `details`
log strings are elided from the model. -/
structure Reward where
  constraintScore : ℚ
  qualityScore : ℚ
  userFeedback : ℚ
  total : ℚ
deriving DecidableEq, Repr

/-- `getEntityColumn` (duplicated in `reward.ts`, `actions.ts` and the
state extractor). -/
def getEntityColumn (entityType : String) : String :=
  let k := entityType.toLower
  if k = "merchant" then "merchant_name"
  else if k = "merchants" then "merchant_name"
  else if k = "category" then "category"
  else entityType

/-- `calculatePartialCredit` from `reward.ts`.  The unused
`evaluationResult` parameter is dropped. -/
def calculatePartialCredit (sql : String) (objective : ObjectiveConfig) : ℚ :=
  let lower := sql.data.map Char.toLower
  let s0 : ℚ := 0
  let s1 :=
    match objective.scope.bind (·.timeframe) with
    | some tf =>
      if tf.value ≠ "" &&
          (subList "created_at".data lower || subList "date".data lower)
      then s0 + 30 else s0
    | none => s0
  let s2 :=
    match objective.scope.bind (·.entity) with
    | some e =>
      if e.type ≠ "" &&
          subList (getEntityColumn e.type).toLower.data lower
      then s1 + 30 else s1
    | none => s1
  let mustInclude := (objective.constraints.map (·.mustInclude)).getD []
  let s3 :=
    if mustInclude.length ≠ 0 then
      s2 + ((mustInclude.countP
        (fun f => subList f.toLower.data lower) : ℚ) / mustInclude.length) * 40
    else s2
  let s4 := if "select".data.isPrefixOf lower then s3 + 10 else s3
  min s4 90

/-- `calculateSimplicityBonus` from `reward.ts`. -/
def calculateSimplicityBonus (sql : String) : ℚ :=
  if sql.length < 100 then 15
  else if sql.length < 200 then 10
  else if sql.length < 300 then 5
  else -5

/-- `calculateSpecificityBonus` from `reward.ts`. -/
def calculateSpecificityBonus (sql : String) : ℚ :=
  if containsCS sql "SELECT *" then -5
  else
    match selectFromSplit sql with
    | some m =>
      let columns := (String.mk m.capture).splitOn ","
      if 0 < columns.length && columns.length ≤ 5 then 5 else 0
    | none => 0

/-- `calculateCostBonus` from `reward.ts`: starts at +10, subtracts 5
for `select *`, 10 for a missing `where`, 5 per join, adds 5 for
`limit`. -/
def calculateCostBonus (sql : String) : ℚ :=
  let lower := sql.data.map Char.toLower
  let b0 : ℚ := 10
  let b1 := if subList "select *".data lower then b0 - 5 else b0
  let b2 := if !(subList "where".data lower) then b1 - 10 else b1
  let b3 := b2 - (countJoin lower : ℚ) * 5
  let b4 := if subList "limit".data lower then b3 + 5 else b3
  b4

/-- `calculateExecutionBonus` from `reward.ts` (capped to [-20, 20]). -/
def calculateExecutionBonus (metrics : ExecutionMetrics) : ℚ :=
  if metrics.hasErrors = some true then -20
  else
    let b0 : ℚ := 0
    let b1 :=
      match metrics.executionTime with
      | some t =>
        if t < 50 then b0 + 10
        else if t < 100 then b0 + 5
        else if 1000 < t then b0 - 5
        else b0
      | none => b0
    let b2 :=
      match metrics.rowCount, metrics.expectedRowCount with
      | some rc, some erc =>
        let rowDiff := |rc - erc|
        if rowDiff = 0 then b1 + 10
        else if rowDiff < 5 then b1 + 5
        else if 100 < rowDiff then b1 - 5
        else b1
      | _, _ => b1
    let b3 :=
      match metrics.rowCount with
      | some rc => if 0 < rc then b2 + 5 else b2
      | none => b2
    max (-20) (min 20 b3)

/-- `calculateReward` from `reward.ts`. -/
def calculateReward (sql : String) (objective : ObjectiveConfig)
    (evaluationResult : EvaluationResult)
    (executionMetrics : Option ExecutionMetrics) : Reward :=
  let constraintScore : ℚ :=
    if evaluationResult.passed then 100
    else calculatePartialCredit sql objective
  let qs1 := calculateSimplicityBonus sql + calculateSpecificityBonus sql +
    calculateCostBonus sql
  let qualityScore :=
    match executionMetrics with
    | some m => qs1 + calculateExecutionBonus m
    | none => qs1
  { constraintScore := constraintScore
    qualityScore := qualityScore
    userFeedback := 0
    total := constraintScore + qualityScore }

/-- The only property of the pluggable `explainQuery` analysis that the
semantic validator reads. -/
structure ExplainInfo where
  aggregation : Bool
deriving DecidableEq, Repr

/-- Result of `validateQuerySemantics`. -/
structure SemanticValidation where
  semanticsMatch : Bool
  issues : List String
deriving DecidableEq, Repr

/-- `validateQuerySemantics` from `reward.ts`. -/
def validateQuerySemantics (sql : String) (objective : ObjectiveConfig)
    (explain : ExplainInfo) : SemanticValidation :=
  let lower := sql.data.map Char.toLower
  let intentL := objective.intent.toLower.data
  let issues1 : List String :=
    if subList "except".data intentL || subList "excluding".data intentL then
      match objective.scope.bind (·.entity) with
      | some e =>
        match e.identifier with
        | some ident =>
          if ident.truthy then
            let excludeTerm := ident.jsString.toLower
            if !(subList "!=".data lower) && !(subList "not in".data lower) then
              if subList ("'" ++ excludeTerm ++ "'").data lower ||
                  subList ("\"" ++ excludeTerm ++ "\"").data lower then
                ["Intent wants to EXCLUDE \"" ++ ident.jsString ++
                  "\" but query may INCLUDE it"]
              else []
            else []
          else []
        | none => []
      | none => []
    else []
  let issues2 : List String :=
    if subList "all".data intentL && !(subList "total".data intentL) then
      if explain.aggregation then
        ["Intent wants ALL records but query uses aggregation (SUM/COUNT)"]
      else []
    else []
  let issues3 : List String :=
    match objective.scope.bind (·.filters) with
    | some filters =>
      filters.foldl (fun acc filter =>
        let filterValue := filter.value.jsString.toLower
        let filterField := filter.field.toLower
        if !(subList filterField.data lower) ||
            !(subList filterValue.data lower) then
          acc ++ ["Intent mentions \"" ++ filter.value.jsString ++ "\" (" ++
            filter.field ++ ") but query does not filter by it"]
        else acc) []
    | none =>
      match objective.scope.bind (·.entity) with
      | some e =>
        match e.identifier with
        | some ident =>
          if ident.truthy then
            let identifiers :=
              match ident with
              | .arr l => l
              | .str s => [s]
            identifiers.foldl (fun acc id =>
              if !(subList id.toLower.data lower) &&
                  !(subList "except".data intentL) then
                acc ++ ["Intent mentions \"" ++ id ++
                  "\" but query does not filter by it"]
              else acc) []
          else []
        | none => []
      | none => []
  let issues := issues1 ++ issues2 ++ issues3
  { semanticsMatch := issues.length = 0, issues := issues }

/-! Action space (`lib/rl/actions.ts`).  Actions are represented by their
runtime string values from the `SQLAction` enum; the driver applies them
with no parameters, so every transformation uses its default arguments. -/

/-- `SQLAction.ADD_COLUMN`. -/
def ADD_COLUMN : String := "add_column"

/-- `SQLAction.REMOVE_COLUMN`. -/
def REMOVE_COLUMN : String := "remove_column"

/-- `SQLAction.ADD_WHERE_CLAUSE`. -/
def ADD_WHERE_CLAUSE : String := "add_where"

/-- `SQLAction.MODIFY_WHERE_OPERATOR`. -/
def MODIFY_WHERE_OPERATOR : String := "modify_where"

/-- `SQLAction.REMOVE_WHERE_CLAUSE`. -/
def REMOVE_WHERE_CLAUSE : String := "remove_where"

/-- `SQLAction.ADD_AGGREGATION`. -/
def ADD_AGGREGATION : String := "add_agg"

/-- `SQLAction.REMOVE_AGGREGATION`. -/
def REMOVE_AGGREGATION : String := "remove_agg"

/-- `SQLAction.ADD_ORDER_BY`. -/
def ADD_ORDER_BY : String := "add_order"

/-- `SQLAction.FIX_ENTITY_COLUMN`. -/
def FIX_ENTITY_COLUMN : String := "fix_entity"

/-- `SQLAction.USE_LLM_POLICY`. -/
def USE_LLM_POLICY : String := "llm_policy"

/-- `SQLAction.NO_OP`. -/
def NO_OP : String := "noop"

/-- Length of the maximal leading run of JS `\w` characters. -/
def wordRun : List Char → ℕ
  | [] => 0
  | c :: cs => if wordChar c then wordRun cs + 1 else 0

/-- Does `/WHERE.*=/i` match: reachability of `=` from a `WHERE` without
crossing a newline (regex `.`). -/
def eqAfter : List Char → Bool
  | [] => false
  | c :: cs =>
    if c = '=' then true
    else if c = '\n' || c = '\r' then false
    else eqAfter cs

/-- Test of `/WHERE.*=/i` over the whole string. -/
def whereEqTest : List Char → Bool
  | [] => false
  | c :: cs =>
    (ciAt ['w', 'h', 'e', 'r', 'e'] (c :: cs) && eqAfter ((c :: cs).drop 5))
      || whereEqTest cs

/-- Alternation `(SUM|COUNT|AVG|MAX|MIN)` (case-insensitive); at most one
alternative can match at a given position. -/
def aggNameAt (l : List Char) : Option ℕ :=
  if ciAt ['s', 'u', 'm'] l then some 3
  else if ciAt ['c', 'o', 'u', 'n', 't'] l then some 5
  else if ciAt ['a', 'v', 'g'] l then some 3
  else if ciAt ['m', 'a', 'x'] l then some 3
  else if ciAt ['m', 'i', 'n'] l then some 3
  else none

/-- Test of `/(SUM|COUNT|AVG|MAX|MIN)\s*\(/i`. -/
def aggOpenTest : List Char → Bool
  | [] => false
  | c :: cs =>
    (match aggNameAt (c :: cs) with
     | some n =>
       let r := (c :: cs).drop n
       (r.drop (wsRun r)).head? = some '('
     | none => false)
      || aggOpenTest cs

/-- Length of the maximal leading run of `[^)]` characters. -/
def nonParenRun : List Char → ℕ
  | [] => 0
  | c :: cs => if c = ')' then 0 else nonParenRun cs + 1

/-- Length of the maximal leading run of `[^;]` characters. -/
def nonSemiRun : List Char → ℕ
  | [] => 0
  | c :: cs => if c = ';' then 0 else nonSemiRun cs + 1

/-- Length of the maximal leading run of `[^']` characters. -/
def nonQuoteRun : List Char → ℕ
  | [] => 0
  | c :: cs => if c = '\'' then 0 else nonQuoteRun cs + 1

/-- Match length of `/(SUM|COUNT|AVG|MAX|MIN)\s*\([^)]+\)/i` at the
current position (all pieces are forced, so no backtracking arises). -/
def aggCallAt (l : List Char) : Option ℕ :=
  match aggNameAt l with
  | some n =>
    let r := l.drop n
    let w := wsRun r
    if (r.drop w).head? = some '(' then
      let body := r.drop (w + 1)
      let k := nonParenRun body
      if 0 < k && (body.drop k).head? = some (')') then
        some (n + w + 1 + k + 1)
      else none
    else none
  | none => none

/-- Fuel-bounded scanner for the global replace of aggregation calls by
`*` (`/(SUM|...)\s*\([^)]+\)/gi`, restart after each match).  A returned
match length is always at least 1, so dropping `len - 1` from the tail
is the same as dropping `len` from the list; with fuel initialized to
the list length the fuel never runs out. -/
def replaceAggCallsAux : ℕ → List Char → List Char
  | 0, l => l
  | _ + 1, [] => []
  | fuel + 1, c :: cs =>
    match aggCallAt (c :: cs) with
    | some len => '*' :: replaceAggCallsAux fuel (cs.drop (len - 1))
    | none => c :: replaceAggCallsAux fuel cs

/-- The global replace of aggregation calls by `*` in
`removeAggregation`. -/
def replaceAggCalls (l : List Char) : List Char :=
  replaceAggCallsAux l.length l

/-- Match length of `/\s*GROUP BY\s+[^;]+/i` at the current position.
The leading `\s*` must take its full run (a shorter take leaves a
whitespace character where `G` is required).  The greedy `\s+` after
`GROUP BY` backtracks: with `w2` whitespace characters followed by `k`
further non-`;` characters, `\s+` takes all `w2` when `k ≥ 1`;
otherwise (`k = 0`, i.e. `;` or end of string follows) it backs off to
`w2 - 1` so that `[^;]+` — whose class contains whitespace — can take
the final whitespace character, which needs `w2 ≥ 2`.  Both shapes
consume `w + 8 + w2 + k` characters in total. -/
def groupByAt (l : List Char) : Option ℕ :=
  let w := wsRun l
  if ciAt ['g', 'r', 'o', 'u', 'p', ' ', 'b', 'y'] (l.drop w) then
    let r := l.drop (w + 8)
    let w2 := wsRun r
    let k := nonSemiRun (r.drop w2)
    if (0 < w2 && 0 < k) || 2 ≤ w2 then some (w + 8 + w2 + k)
    else none
  else none

/-- Leftmost match of `/\s*GROUP BY\s+[^;]+/i`. -/
def scanGroupBy : List Char → Option (ℕ × ℕ)
  | [] => none
  | c :: cs =>
    match groupByAt (c :: cs) with
    | some len => some (0, len)
    | none => (scanGroupBy cs).map (fun p => (p.1 + 1, p.2))

/-- `result.replace(/\s*GROUP BY\s+[^;]+/i, "")`. -/
def removeGroupBy (l : List Char) : List Char :=
  match scanGroupBy l with
  | none => l
  | some (i, len) => l.take i ++ l.drop (i + len)

/-- Match of `/FROM\s+(\w+)/i` at the current position:
`(wsLen, wordLen)`. -/
def fromWordAt (l : List Char) : Option (ℕ × ℕ) :=
  if ciAt ['f', 'r', 'o', 'm'] l then
    let r := l.drop 4
    let w := wsRun r
    if 0 < w then
      let u := wordRun (r.drop w)
      if 0 < u then some (w, u) else none
    else none
  else none

/-- Leftmost match of `/FROM\s+(\w+)/i`. -/
def scanFromWord : List Char → Option (ℕ × (ℕ × ℕ))
  | [] => none
  | c :: cs =>
    match fromWordAt (c :: cs) with
    | some wu => some (0, wu)
    | none => (scanFromWord cs).map (fun p => (p.1 + 1, p.2))

/-- Match of `/WHERE\s+(\w+)\s*=\s*'([^']+)'/i` at the current position:
`(ws1, wordLen, ws2, ws3, valueLen)` (all runs are forced maximal, so
the match is deterministic). -/
def whereEqCaptureAt (l : List Char) : Option (ℕ × ℕ × ℕ × ℕ × ℕ) :=
  if ciAt ['w', 'h', 'e', 'r', 'e'] l then
    let r := l.drop 5
    let w := wsRun r
    if 0 < w then
      let u := wordRun (r.drop w)
      if 0 < u then
        let r2 := r.drop (w + u)
        let w2 := wsRun r2
        if (r2.drop w2).head? = some '=' then
          let r3 := r2.drop (w2 + 1)
          let w3 := wsRun r3
          if (r3.drop w3).head? = some '\'' then
            let body := r3.drop (w3 + 1)
            let k := nonQuoteRun body
            if 0 < k && (body.drop k).head? = some '\'' then
              some (w, u, w2, w3, k)
            else none
          else none
        else none
      else none
    else none
  else none

/-- Leftmost match of `/WHERE\s+(\w+)\s*=\s*'([^']+)'/i`. -/
def scanWhereEq : List Char → Option (ℕ × (ℕ × ℕ × ℕ × ℕ × ℕ))
  | [] => none
  | c :: cs =>
    match whereEqCaptureAt (c :: cs) with
    | some t => some (0, t)
    | none => (scanWhereEq cs).map (fun p => (p.1 + 1, p.2))

/-- Lookahead `(?=GROUP BY|ORDER BY|$)` of `removeWhereClause`. -/
def rwCompletion : List Char → Option ℕ
  | [] => some 0
  | c :: cs =>
    if ciAt ['g', 'r', 'o', 'u', 'p', ' ', 'b', 'y'] (c :: cs) ||
        ciAt ['o', 'r', 'd', 'e', 'r', ' ', 'b', 'y'] (c :: cs) then some 0
    else if c = '\n' || c = '\r' then none
    else (rwCompletion cs).map (· + 1)

/-- Backtracking over the greedy `\s+` of
`/WHERE\s+.*?(?=GROUP BY|ORDER BY|$)/i`; returns the total match
length. -/
def rwWsA : ℕ → List Char → Option ℕ
  | 0, _ => none
  | a + 1, r =>
    match rwCompletion (r.drop (a + 1)) with
    | some c => some (5 + (a + 1) + c)
    | none => rwWsA a r

/-- Match of `removeWhereClause`'s regex at the current position. -/
def rwAt (l : List Char) : Option ℕ :=
  if ciAt ['w', 'h', 'e', 'r', 'e'] l then
    let r := l.drop 5
    let w := wsRun r
    if w = 0 then none else rwWsA w r
  else none

/-- Leftmost match of `/WHERE\s+.*?(?=GROUP BY|ORDER BY|$)/i`. -/
def scanRW : List Char → Option (ℕ × ℕ)
  | [] => none
  | c :: cs =>
    match rwAt (c :: cs) with
    | some len => some (0, len)
    | none => (scanRW cs).map (fun p => (p.1 + 1, p.2))

/-- `addColumn` from `actions.ts` (default column `"amount"`). -/
def addColumn (sql : String) : String :=
  match selectFromSplit sql with
  | none => sql
  | some m =>
    let currentColumns := String.mk (trimL m.capture)
    if currentColumns = "*" then
      replaceSelectStarFrom sql "SELECT id, amount FROM"
    else
      replaceSelectFrom sql ("SELECT " ++ currentColumns ++ ", amount FROM")

/-- `removeColumn` from `actions.ts`.  With no column parameter the
filter drops every column, so a matching query is rewritten to
`SELECT * FROM`. -/
def removeColumn (sql : String) : String :=
  if containsCS sql "SELECT *" then sql
  else
    match selectFromSplit sql with
    | none => sql
    | some _ => replaceSelectFrom sql "SELECT * FROM"

/-- `addWhereClause` from `actions.ts` (default predicate
`"amount > 0"`). -/
def addWhereClause (sql : String) : String :=
  if containsLower sql "where" then sql
  else
    match scanFromWord sql.data with
    | none => sql
    | some (i, w, u) =>
      let l := sql.data
      let word := (l.drop (i + 4 + w)).take u
      String.mk (l.take i ++ "FROM ".data ++ word ++
        " WHERE amount > 0".data ++ l.drop (i + 4 + w + u))

/-- `modifyWhereOperator` from `actions.ts`: rewrite the first
`WHERE col = 'value'` into `WHERE col IN ('value')`. -/
def modifyWhereOperator (sql : String) : String :=
  match scanWhereEq sql.data with
  | none => sql
  | some (i, w, u, w2, w3, k) =>
    let l := sql.data
    let column := (l.drop (i + 5 + w)).take u
    let value := (l.drop (i + 5 + w + u + w2 + 1 + w3 + 1)).take k
    let matchLen := 5 + w + u + w2 + 1 + w3 + 1 + k + 1
    String.mk (l.take i ++ "WHERE ".data ++ column ++ " IN ('".data ++
      value ++ "')".data ++ l.drop (i + matchLen))

/-- `removeWhereClause` from `actions.ts` (driver form: no predicate
parameter, so the whole clause is removed). -/
def removeWhereClause (sql : String) : String :=
  match scanRW sql.data with
  | none => sql
  | some (i, len) => String.mk (sql.data.take i ++ sql.data.drop (i + len))

/-- `addAggregation` from `actions.ts` (defaults `SUM`, `"amount"`). -/
def addAggregation (sql : String) : String :=
  replaceSelectFrom sql "SELECT SUM(amount) FROM"

/-- `removeAggregation` from `actions.ts`: replace aggregation calls by
`*`, then strip the `GROUP BY` clause. -/
def removeAggregation (sql : String) : String :=
  String.mk (removeGroupBy (replaceAggCalls sql.data))

/-- `addOrderBy` from `actions.ts` (default column `"created_at"`). -/
def addOrderBy (sql : String) : String :=
  if containsLower sql "order by" then sql
  else String.mk (trimL sql.data) ++ " ORDER BY created_at DESC"

/-- Is the next character (if any) outside JS `\w`, i.e. does `\b` hold
after a word-character match here. -/
def wordBoundAfter (l : List Char) : Bool :=
  match l.head? with
  | none => true
  | some c => !wordChar c

/-- Fuel-bounded global case-insensitive replace of the word-bounded
pattern `p0 :: ps` (all word characters) by `rep`
(`new RegExp("\\b" + pat + "\\b(?!_name)", "gi")`; the lookahead is
redundant because `\b` already excludes a following underscore).  The
boolean tracks whether the previous character was a word character;
with fuel initialized to the list length the fuel never runs out. -/
def replaceWordCIAux (p0 : Char) (ps : List Char) (rep : List Char) :
    ℕ → Bool → List Char → List Char
  | 0, _, l => l
  | _ + 1, _, [] => []
  | fuel + 1, prevWord, c :: cs =>
    if !prevWord && ciAt (p0 :: ps) (c :: cs) &&
        wordBoundAfter ((c :: cs).drop (ps.length + 1)) then
      rep ++ replaceWordCIAux p0 ps rep fuel true (cs.drop ps.length)
    else
      c :: replaceWordCIAux p0 ps rep fuel (wordChar c) cs

/-- One `result.replace(regex, correctColumn)` step of
`fixEntityColumn`. -/
def applyWordReplace (pat : String) (rep : String) (s : String) : String :=
  match pat.data with
  | [] => s
  | p0 :: ps =>
    String.mk (replaceWordCIAux p0 ps rep.data s.data.length false s.data)

/-- `fixEntityColumn` from `actions.ts`. -/
def fixEntityColumn (sql : String) (objective : ObjectiveConfig) : String :=
  match objective.scope.bind (·.entity) with
  | none => sql
  | some e =>
    if e.type = "" then sql
    else
      let correctColumn := getEntityColumn e.type
      let incorrectPatterns :=
        ["merchant", "category"].filter (fun p => p ≠ correctColumn)
      incorrectPatterns.foldl
        (fun result incorrect => applyWordReplace incorrect correctColumn result)
        sql

/-- `applyAction` from `actions.ts`, in the form the driver invokes it
(an action tag with no parameters); unknown tags and `NO_OP` return the
query unchanged. -/
def applyAction (sql : String) (actionType : String)
    (objective : ObjectiveConfig) : String :=
  if actionType = ADD_COLUMN then addColumn sql
  else if actionType = REMOVE_COLUMN then removeColumn sql
  else if actionType = ADD_WHERE_CLAUSE then addWhereClause sql
  else if actionType = MODIFY_WHERE_OPERATOR then modifyWhereOperator sql
  else if actionType = REMOVE_WHERE_CLAUSE then removeWhereClause sql
  else if actionType = ADD_AGGREGATION then addAggregation sql
  else if actionType = REMOVE_AGGREGATION then removeAggregation sql
  else if actionType = ADD_ORDER_BY then addOrderBy sql
  else if actionType = FIX_ENTITY_COLUMN then fixEntityColumn sql objective
  else sql

/-- One step of the walk deciding `/SELECT\s+[\w,\s]+\s+FROM/i`: `count`
characters of the class `[\w,\s]` have been consumed and `prevWs` says
whether the last one was whitespace; the pattern completes once at least
three class characters ending in whitespace are followed by `FROM`. -/
def colsWalk : Bool → ℕ → List Char → Bool
  | _, _, [] => false
  | prevWs, count, c :: cs =>
    (decide (3 ≤ count) && prevWs && ciAt ['f', 'r', 'o', 'm'] (c :: cs)) ||
    ((wordChar c || c = ',' || wsChar c) && colsWalk (wsChar c) (count + 1) cs)

/-- Attempt `/SELECT\s+[\w,\s]+\s+FROM/i` at the current position. -/
def trySelectColsAt (l : List Char) : Bool :=
  if ciAt ['s', 'e', 'l', 'e', 'c', 't'] l then
    match l.drop 6 with
    | [] => false
    | c :: cs => wsChar c && colsWalk true 1 cs
  else false

/-- Test of `/SELECT\s+[\w,\s]+\s+FROM/i` over the whole string. -/
def hasSelectColsFrom : List Char → Bool
  | [] => false
  | c :: cs => trySelectColsAt (c :: cs) || hasSelectColsFrom cs

/-- `getApplicableActions` from `actions.ts`. -/
def getApplicableActions (sql : String) (objective : ObjectiveConfig) :
    List String :=
  let l1 := [USE_LLM_POLICY]
  let l2 := if !(containsCS sql "SELECT *") then l1 ++ [ADD_COLUMN] else l1
  let l3 :=
    if hasSelectColsFrom sql.data && !(containsCS sql "SELECT *") then
      l2 ++ [REMOVE_COLUMN]
    else l2
  let l4 :=
    if !(containsLower sql "where") then l3 ++ [ADD_WHERE_CLAUSE] else l3
  let l5 :=
    if whereEqTest sql.data then l4 ++ [ MODIFY_WHERE_OPERATOR ] else l4
  let l6 :=
    match objective.scope.bind (·.entity) with
    | some e => if e.type ≠ "" then l5 ++ [FIX_ENTITY_COLUMN] else l5
    | none => l5
  let l7 := if !(aggOpenTest sql.data) then l6 ++ [ADD_AGGREGATION] else l6
  let l8 := if aggOpenTest sql.data then l7 ++ [REMOVE_AGGREGATION] else l7
  let l9 :=
    if !(containsLower sql "order by") then l8 ++ [ADD_ORDER_BY] else l8
  l9

/-- `MAX_EXPERIENCES` from `experience.ts`. -/
def MAX_EXPERIENCES : ℕ := 1000

/-- `addExperience` from `experience.ts`, on the explicit buffer:
`push`, then `shift` the oldest element when the capacity is exceeded. -/
def addExperience (buf : List Experience) (e : Experience) : List Experience :=
  let b := buf ++ [e]
  if MAX_EXPERIENCES < b.length then b.tail else b

/-! The optimization driver (`lib/rl/optimizer.ts`).  The pluggable
callbacks and all external effects are collected in an `Env` of oracles;
the process-global mutable state is threaded through a `LoopState`. -/

/-- Oracles for the driver's external collaborators:
`generateSQL` results by call count, the evaluator callback (composed
with the `explainQuery` callback, whose result the driver only forwards),
the semantic-validator's view of the analysis, the `Math.random()`
stream (two draws per iteration), the state-key function
(`stateKey ∘ extractState` with the external md5 objective hash), and
the `crypto`/clock sources for experience ids and timestamps. -/
structure Env where
  gen : ℕ → String
  evalSQL : String → EvaluationResult
  explain : String → ExplainInfo
  rand1 : ℕ → ℚ
  rand2 : ℕ → ℚ
  skey : String → String
  objHash : String
  expId : ℕ → String
  now : ℕ → String

/-- One entry of the driver's `iterationLogs` (the `details` strings are
elided). -/
structure IterationLog where
  iteration : ℕ
  sql : String
  action : String
  state : String
  evaluation : EvaluationResult
  semanticMatch : Bool
  semanticIssues : List String
  rewardTotal : ℚ
  rewardConstraint : ℚ
  rewardQuality : ℚ
  converged : Bool

/-- The driver's local variables plus the process-global state it
mutates (Q-table, experience buffer, config/epsilon) and counters for
the observable external calls. -/
structure LoopState where
  currentSQL : String
  previousFeedback : Option Feedback
  finalReward : ℚ
  logs : List IterationLog
  qt : QTableL
  exps : List Experience
  cfg : QLearningConfig
  genCalls : ℕ
  expCount : ℕ
  decayCalls : ℕ

/-- The driver's return value. -/
structure RLResult where
  sql : String
  iterations : ℕ
  finalReward : ℚ
  iterationLogs : List IterationLog

/-- Result of one loop body execution: the updated state, the
convergence flag, and the iteration's candidate and total reward. -/
structure IterOutcome where
  st : LoopState
  conv : Bool
  nextSQL : String
  rewardTotal : ℚ

/-- One iteration of the `optimizeSQL` loop body (steps 1-11 of
`optimizer.ts`): for iteration 1 the initial candidate is generated
first; then extract state, choose and apply an action (or call the
generator for `USE_LLM_POLICY`), evaluate, validate semantics, compute
the reward with the per-issue semantic penalty of -15, Bellman-update
the Q-table, record the experience, append the iteration log, and
compute the convergence predicate
`passed && semanticsMatch && total >= 100`. -/
def iterBody (env : Env) (objective : ObjectiveConfig) (iter : ℕ)
    (st0 : LoopState) : IterOutcome :=
  let sql0 := if iter = 1 then env.gen st0.genCalls else st0.currentSQL
  let genCalls0 := if iter = 1 then st0.genCalls + 1 else st0.genCalls
  let currentStateKey := env.skey sql0
  let applicableActions := getApplicableActions sql0 objective
  let selectedAction :=
    (selectAction st0.qt st0.cfg.epsilon (env.rand1 iter) (env.rand2 iter)
      currentStateKey applicableActions).getD "undefined"
  let nextSQL :=
    if selectedAction = USE_LLM_POLICY then env.gen genCalls0
    else applyAction sql0 selectedAction objective
  let genCalls1 :=
    if selectedAction = USE_LLM_POLICY then genCalls0 + 1 else genCalls0
  let evaluationResult := env.evalSQL nextSQL
  let semanticValidation :=
    validateQuerySemantics nextSQL objective (env.explain nextSQL)
  let reward0 := calculateReward nextSQL objective evaluationResult
    (some { executionTime := none
            rowCount := none
            expectedRowCount := none
            hasErrors := some (!evaluationResult.passed) })
  let reward :=
    if !semanticValidation.semanticsMatch then
      let semanticPenalty : ℚ := (semanticValidation.issues.length : ℚ) * (-15)
      { reward0 with
          qualityScore := reward0.qualityScore + semanticPenalty
          total := reward0.total + semanticPenalty }
    else reward0
  let nextStateKey := env.skey nextSQL
  let qt1 := updateQValue st0.cfg st0.qt currentStateKey selectedAction
    (JSVal.num reward.total) nextStateKey applicableActions
  let exp : Experience :=
    { id := env.expId st0.expCount
      stateKey := currentStateKey
      action := selectedAction
      reward := reward.total
      nextStateKey := nextStateKey
      terminal := evaluationResult.passed
      timestamp := env.now iter
      objectiveHash := env.objHash }
  let exps1 := addExperience st0.exps exp
  let conv := evaluationResult.passed && semanticValidation.semanticsMatch &&
    decide (100 ≤ reward.total)
  let log : IterationLog :=
    { iteration := iter
      sql := nextSQL
      action := selectedAction
      state := currentStateKey.take 80
      evaluation := evaluationResult
      semanticMatch := semanticValidation.semanticsMatch
      semanticIssues := semanticValidation.issues
      rewardTotal := reward.total
      rewardConstraint := reward.constraintScore
      rewardQuality := reward.qualityScore
      converged := conv }
  { st := { st0 with
      currentSQL := nextSQL
      previousFeedback := evaluationResult.feedback
      finalReward := reward.total
      logs := st0.logs ++ [log]
      qt := qt1
      exps := exps1
      genCalls := genCalls1
      expCount := st0.expCount + 1 }
    conv := conv
    nextSQL := nextSQL
    rewardTotal := reward.total }

/-- The `for` loop of `optimizeSQL`, by remaining fuel; the exits
(converged and exhausted) both persist state and decay epsilon exactly
once.  The persistence writes themselves are I/O whose failure the
source swallows; the returned `LoopState` is the in-memory state they
serialize. -/
def optLoop (env : Env) (objective : ObjectiveConfig) (maxIterations : ℕ) :
    ℕ → ℕ → LoopState → RLResult × LoopState
  | 0, _iter, st =>
    let st1 := { st with
      cfg := decayEpsilon st.cfg
      decayCalls := st.decayCalls + 1 }
    ({ sql := st.currentSQL
       iterations := maxIterations
       finalReward := st.finalReward
       iterationLogs := st.logs }, st1)
  | fuel + 1, iter, st =>
    let o := iterBody env objective iter st
    if o.conv then
      let st1 := { o.st with
        cfg := decayEpsilon o.st.cfg
        decayCalls := o.st.decayCalls + 1 }
      ({ sql := o.nextSQL
         iterations := iter
         finalReward := o.rewardTotal
         iterationLogs := o.st.logs }, st1)
    else
      optLoop env objective maxIterations fuel (iter + 1) o.st

/-- `objective?.loopPolicy?.maxIterations ?? 10`. -/
def sessionMaxIterations (objective : ObjectiveConfig) : ℕ :=
  (objective.loopPolicy.bind (·.maxIterations)).getD 10

/-- The driver's state at session start: empty locals over the incoming
process-global Q-table, experience buffer and config. -/
def initLoopState (cfg : QLearningConfig) (qt : QTableL)
    (exps : List Experience) : LoopState :=
  { currentSQL := ""
    previousFeedback := none
    finalReward := 0
    logs := []
    qt := qt
    exps := exps
    cfg := cfg
    genCalls := 0
    expCount := 0
    decayCalls := 0 }

/-- `optimizeSQL` from `optimizer.ts`: the full session.  Returns the
session result together with the final process-global state. -/
def optimizeSQL (env : Env) (objective : ObjectiveConfig)
    (cfg : QLearningConfig) (qt : QTableL) (exps : List Experience) :
    RLResult × LoopState :=
  let maxIterations := sessionMaxIterations objective
  optLoop env objective maxIterations maxIterations 1
    (initLoopState cfg qt exps)

/-- The state reached after running iterations
`iter, iter+1, …, iter+d-1` of the loop body from `st`. -/
def loopAdvance (env : Env) (objective : ObjectiveConfig) (st : LoopState)
    (iter : ℕ) : ℕ → LoopState
  | 0 => st
  | d + 1 => (iterBody env objective (iter + d) (loopAdvance env objective st iter d)).st

/-- The convergence flag computed by iteration `k` (1-based) of a
session started from `st0`. -/
def convAt (env : Env) (objective : ObjectiveConfig) (st0 : LoopState)
    (k : ℕ) : Bool :=
  (iterBody env objective k (loopAdvance env objective st0 1 (k - 1))).conv

/-! Anchor tests: boolean matchers paired with the replace scanners, used
to state the anchor-absent properties of the transformations. -/

/-- Does the aggregation-call regex of `removeAggregation` match
anywhere. -/
def aggCallTest : List Char → Bool
  | [] => false
  | c :: cs => (aggCallAt (c :: cs)).isSome || aggCallTest cs

/-- Does the word-bounded case-insensitive pattern of `fixEntityColumn`
occur anywhere (start-of-string boundary). -/
def wordCIFound (p0 : Char) (ps : List Char) : Bool → List Char → Bool
  | _, [] => false
  | prevWord, c :: cs =>
    (!prevWord && ciAt (p0 :: ps) (c :: cs) &&
      wordBoundAfter ((c :: cs).drop (ps.length + 1)))
      || wordCIFound p0 ps (wordChar c) cs

/-- Occurrence test for one of `fixEntityColumn`'s patterns in a
query. -/
def wordPatFound (pat : String) (sql : String) : Bool :=
  match pat.data with
  | [] => false
  | p0 :: ps => wordCIFound p0 ps false sql.data

/-! Concrete fixtures used by witness and counterexample theorems. -/

/-- An objective with no optional parts. -/
def objEmpty : ObjectiveConfig :=
  { intent := "x"
    scope := none
    constraints := none
    successCriteria := none
    loopPolicy := none }

/-- An objective capping the session at one iteration. -/
def objOneIter : ObjectiveConfig :=
  { intent := "x"
    scope := none
    constraints := none
    successCriteria := none
    loopPolicy := some { maxIterations := some 1 } }

/-- A malformed objective for `validateObjective`: the intent and the
timeframe are present, `successCriteria` is missing, and the session is
capped at one iteration. -/
def objBad : ObjectiveConfig :=
  { intent := "list expenses"
    scope := some
      { timeframe := some { type := "RELATIVE", value := "last_30_days" }
        entity := none
        filters := none }
    constraints := none
    successCriteria := none
    loopPolicy := some { maxIterations := some 1 } }

/-- An oracle environment whose evaluator always passes. -/
def envPass : Env :=
  { gen := fun _ => ""
    evalSQL := fun _ => { passed := true, feedback := none }
    explain := fun _ => { aggregation := false }
    rand1 := fun _ => 0
    rand2 := fun _ => 0
    skey := fun _ => ""
    objHash := ""
    expId := fun _ => ""
    now := fun _ => "" }

/-- An oracle environment whose evaluator always fails. -/
def envFail : Env :=
  { gen := fun _ => ""
    evalSQL := fun _ => { passed := false, feedback := none }
    explain := fun _ => { aggregation := false }
    rand1 := fun _ => 0
    rand2 := fun _ => 0
    skey := fun _ => ""
    objHash := ""
    expId := fun _ => ""
    now := fun _ => "" }

/-- A query with nine joins, used to exhibit an out-of-range
`qualityScore`. -/
def sqlNineJoins : String :=
  "SELECT * FROM a join b join c join d join e join f join g join h join i join j"

/-- A tiny Q-table fixture for the Bellman-update witness. -/
def qtWitness : QTableL :=
  [("s", [("a", JSVal.num 10)]), ("t", [("b", JSVal.num 20)])]

end RLSql

namespace RLSql

/-! Helper lemmas for the Q-table store. -/

theorem lookupA_setA (l : List (String × JSVal)) (a : String) (v : JSVal) :
    lookupA (setA l a v) a = some v := by
  induction l with
  | nil => simp [setA, lookupA]
  | cons p rest ih =>
    obtain ⟨k, w⟩ := p
    by_cases h : k = a
    · simp [setA, h, lookupA]
    · simp [setA, h, lookupA, ih]

theorem getQValue_setQInner (qt : QTableL) (s a : String) (v : JSVal) :
    getQValue (setQInner qt s a v) s a = v := by
  induction qt with
  | nil => simp [setQInner, getQValue, lookupS, lookupA]
  | cons p rest ih =>
    obtain ⟨k, m⟩ := p
    by_cases h : k = s
    · simp [setQInner, h, getQValue, lookupS, lookupA_setA]
    · simpa [setQInner, h, getQValue, lookupS] using ih

theorem setQInner_length_le (qt : QTableL) (s a : String) (v : JSVal) :
    (setQInner qt s a v).length ≤ qt.length + 1 := by
  induction qt with
  | nil => simp [setQInner]
  | cons p rest ih =>
    obtain ⟨k, m⟩ := p
    by_cases h : k = s
    · simp [setQInner, h]
    · simpa [setQInner, h, Nat.succ_le_succ_iff] using ih

theorem getQValue_setQValue (cfg : QLearningConfig) (qt : QTableL)
    (s a : String) (v : JSVal) (h : qt.length < cfg.maxQTableSize) :
    getQValue (setQValue cfg qt s a v) s a = v := by
  unfold setQValue
  have hle := setQInner_length_le qt s a v
  have : ¬ cfg.maxQTableSize < (setQInner qt s a v).length := by omega
  simp only [this, if_false]
  exact getQValue_setQInner qt s a v

/-- C2: `updateQValue` stores exactly the Bellman value
`Q(s,a) + alpha * (reward + gamma * max Q(s',a') - Q(s,a))` whenever the
current Q-value and the next-state maximum are (finite) numbers — a
non-empty applicable-action list over finite entries — and the table has
room, so the freshly written entry is not the one evicted. -/
theorem updateQValue_bellman (cfg : QLearningConfig) (qt : QTableL)
    (s a : String) (r : ℚ) (s' : String) (acts : List String) (q mq : ℚ)
    (hsize : qt.length < cfg.maxQTableSize)
    (hq : getQValue qt s a = JSVal.num q)
    (hm : maxNextQ qt s' acts = JSVal.num mq) :
    getQValue (updateQValue cfg qt s a (JSVal.num r) s' acts) s a =
      JSVal.num (q + cfg.alpha * (r + cfg.gamma * mq - q)) := by
  unfold updateQValue
  rw [getQValue_setQValue cfg qt s a _ hsize]
  unfold bellmanNewQ
  rw [hq, hm]
  simp only [JSVal.jadd, JSVal.jmul, JSVal.jsub, JSVal.jneg]
  congr 1
  ring

/-- Witness for C2: the documented instance `Q=10, alpha=0.1, gamma=0.9,
reward=50, maxNextQ=20` stores exactly `15.8 = 79/5`. -/
theorem updateQValue_bellman_witness :
    getQValue (updateQValue DEFAULT_CONFIG qtWitness "s" "a" (JSVal.num 50)
      "t" ["b"]) "s" "a" = JSVal.num (79/5) := by
  have h := updateQValue_bellman DEFAULT_CONFIG qtWitness "s" "a" 50 "t"
    ["b"] 10 20 (by decide) (by decide) (by decide)
  have harith :
      (10 : ℚ) + DEFAULT_CONFIG.alpha * (50 + DEFAULT_CONFIG.gamma * 20 - 10) =
        79/5 := by
    unfold DEFAULT_CONFIG
    norm_num
  rw [harith] at h
  exact h

/-- C10: with an empty applicable-action list the next-state maximum is
the empty `Math.max`, `-Infinity`, and the Bellman update writes a
`-Infinity`-contaminated value into the Q-table; `selectAction` on an
empty list returns `undefined` (no action) on both the exploration and
the exploitation branch instead of failing. -/
theorem updateQValue_empty_applicable :
    (∀ (qt : QTableL) (s a : String) (rq q : ℚ) (s' : String),
      qt.length < DEFAULT_CONFIG.maxQTableSize →
      getQValue qt s a = JSVal.num q →
      getQValue (updateQValue DEFAULT_CONFIG qt s a (JSVal.num rq) s' [])
        s a = JSVal.negInf) ∧
    (∀ (qt : QTableL) (eps r1 r2 : ℚ) (s : String),
      selectAction qt eps r1 r2 s [] = none) := by
  constructor
  · intro qt s a rq q s' hsize hq
    unfold updateQValue
    rw [getQValue_setQValue DEFAULT_CONFIG qt s a _ hsize]
    unfold bellmanNewQ maxNextQ
    rw [hq]
    simp only [List.map_nil, List.foldl_nil]
    have h9 : ¬ ((9:ℚ)/10 = 0) := by norm_num
    have h9' : (0:ℚ) < 9/10 := by norm_num
    have h1 : ¬ ((1:ℚ)/10 = 0) := by norm_num
    have h1' : (0:ℚ) < 1/10 := by norm_num
    simp [DEFAULT_CONFIG, JSVal.jadd, JSVal.jmul, JSVal.jsub, JSVal.jneg,
      h9, h9', h1, h1']
  · intro qt eps r1 r2 s
    unfold selectAction
    by_cases h : r1 < eps <;> simp [h]

/-- Witness for C10 at concrete inputs. -/
theorem updateQValue_empty_applicable_witness :
    getQValue (updateQValue DEFAULT_CONFIG qtWitness "s" "a" (JSVal.num 50)
        "t" []) "s" "a" = JSVal.negInf ∧
    selectAction qtWitness (1/5) 0 0 "s" [] = none := by
  refine ⟨?_, updateQValue_empty_applicable.2 qtWitness (1/5) 0 0 "s"⟩
  exact updateQValue_empty_applicable.1 qtWitness "s" "a" 50 10 "t"
    (by decide) (by decide)

/-! Epsilon decay algebra (claim C7, second half). -/

theorem decayEpsilon_iterate_epsilonMin (cfg : QLearningConfig) (n : ℕ) :
    (decayEpsilon^[n] cfg).epsilonMin = cfg.epsilonMin := by
  induction n with
  | zero => rfl
  | succ n ih => rw [Function.iterate_succ_apply', decayEpsilon, ih]

theorem decayEpsilon_iterate_epsilonDecay (cfg : QLearningConfig) (n : ℕ) :
    (decayEpsilon^[n] cfg).epsilonDecay = cfg.epsilonDecay := by
  induction n with
  | zero => rfl
  | succ n ih => rw [Function.iterate_succ_apply', decayEpsilon, ih]

theorem decayEpsilon_iterate_epsilon (cfg : QLearningConfig) (N : ℕ)
    (hN : 1 ≤ N) (hmin : 0 ≤ cfg.epsilonMin) (hd0 : 0 ≤ cfg.epsilonDecay)
    (hd1 : cfg.epsilonDecay ≤ 1) :
    (decayEpsilon^[N] cfg).epsilon =
      max cfg.epsilonMin (cfg.epsilon * cfg.epsilonDecay ^ N) := by
  induction N with
  | zero => omega
  | succ N ih =>
    by_cases hN0 : N = 0
    · subst hN0
      simp [decayEpsilon]
    · have ih' := ih (by omega)
      rw [Function.iterate_succ_apply', decayEpsilon]
      simp only [decayEpsilon_iterate_epsilonMin,
        decayEpsilon_iterate_epsilonDecay, ih']
      rw [max_mul_of_nonneg _ _ hd0, ← max_assoc,
        max_eq_left (mul_le_of_le_one_right hmin hd1), mul_assoc,
        ← pow_succ]

/-! Experience-buffer FIFO lemmas (claim C8). -/

theorem foldl_addExperience (es : List Experience) :
    ∀ buf : List Experience, buf.length ≤ MAX_EXPERIENCES →
    es.foldl addExperience buf =
      (buf ++ es).drop (buf.length + es.length - MAX_EXPERIENCES) := by
  induction es with
  | nil =>
    intro buf h
    have hz : buf.length + ([] : List Experience).length - MAX_EXPERIENCES = 0 := by
      simp only [List.length_nil]
      omega
    rw [List.foldl_nil, List.append_nil, hz, List.drop_zero]
  | cons e rest ih =>
    intro buf h
    rw [List.foldl_cons]
    by_cases hfull : MAX_EXPERIENCES < (buf ++ [e]).length
    · have hlenApp : (buf ++ [e]).length = buf.length + 1 := by simp
      have hlen : buf.length = MAX_EXPERIENCES := by omega
      have hadd : addExperience buf e = ((buf ++ [e]).drop 1) := by
        unfold addExperience
        simp only [hfull, if_true, List.drop_one]
      rw [hadd]
      have hlenDrop : ((buf ++ [e]).drop 1).length = buf.length := by
        simp only [List.length_drop, hlenApp]
        omega
      have hlen2 : ((buf ++ [e]).drop 1).length ≤ MAX_EXPERIENCES := by
        omega
      rw [ih _ hlen2]
      have hsplit : ((buf ++ [e]) ++ rest).drop 1 = (buf ++ [e]).drop 1 ++ rest := by
        rw [List.drop_append_eq_append_drop]
        have h10 : 1 - (buf ++ [e]).length = 0 := by omega
        rw [h10, List.drop_zero]
      rw [← hsplit, List.drop_drop]
      have heq : (buf ++ [e]) ++ rest = buf ++ e :: rest := by simp
      rw [heq]
      have hidx : 1 + (((buf ++ [e]).drop 1).length + rest.length -
          MAX_EXPERIENCES) =
          buf.length + (e :: rest).length - MAX_EXPERIENCES := by
        simp only [List.length_drop, List.length_append,
          List.length_singleton, List.length_cons, List.length_nil]
        omega
      rw [hidx]
    · have hadd : addExperience buf e = buf ++ [e] := by
        unfold addExperience
        simp only [hfull, if_false]
      rw [hadd]
      have hlenApp : (buf ++ [e]).length = buf.length + 1 := by simp
      have hlen2 : (buf ++ [e]).length ≤ MAX_EXPERIENCES := by omega
      rw [ih _ hlen2]
      have heq : (buf ++ [e]) ++ rest = buf ++ e :: rest := by simp
      rw [heq]
      have hidx : (buf ++ [e]).length + rest.length - MAX_EXPERIENCES =
          buf.length + (e :: rest).length - MAX_EXPERIENCES := by
        simp only [List.length_append, List.length_singleton,
          List.length_cons, List.length_nil]
        omega
      rw [hidx]

/-- C8: starting from an empty buffer, any sequence of `addExperience`
calls leaves exactly the most recent `maxExperiences` experiences in
their original relative order (the oldest are evicted first), and after
every single call the buffer length never exceeds
`maxExperiences = 1000`. -/
theorem addExperience_fifo (es : List Experience) :
    es.foldl addExperience [] = es.drop (es.length - MAX_EXPERIENCES) ∧
    ∀ n : ℕ, ((es.take n).foldl addExperience []).length ≤ MAX_EXPERIENCES := by
  constructor
  · have h := foldl_addExperience es ([] : List Experience)
      (by simp [MAX_EXPERIENCES])
    simpa using h
  · intro n
    have h := foldl_addExperience (es.take n) ([] : List Experience)
      (by simp [MAX_EXPERIENCES])
    rw [h]
    simp only [List.nil_append, List.length_nil, Nat.zero_add,
      List.length_drop]
    omega

/-! Reward-calculator bounds (claims C3 and C4). -/

theorem calculatePartialCredit_bounds (sql : String) (obj : ObjectiveConfig) :
    0 ≤ calculatePartialCredit sql obj ∧ calculatePartialCredit sql obj ≤ 90 := by
  simp only [calculatePartialCredit]
  refine ⟨le_min ?_ (by norm_num), min_le_right _ _⟩
  repeat' split
  all_goals positivity

/-- C3: `calculateReward` returns `constraintScore = 100` exactly on a
passing evaluation; on a failing one the partial-credit score lies in
`[0, 90]`, strictly below the full-pass value. -/
theorem calculateReward_constraint_exact (sql : String)
    (obj : ObjectiveConfig) (er : EvaluationResult)
    (em : Option ExecutionMetrics) :
    (er.passed = true →
      (calculateReward sql obj er em).constraintScore = 100) ∧
    (er.passed = false →
      0 ≤ (calculateReward sql obj er em).constraintScore ∧
      (calculateReward sql obj er em).constraintScore ≤ 90 ∧
      (calculateReward sql obj er em).constraintScore < 100) := by
  constructor
  · intro h
    simp [calculateReward, h]
  · intro h
    have hb := calculatePartialCredit_bounds sql obj
    simp only [calculateReward, h, Bool.false_eq_true, if_false]
    exact ⟨hb.1, hb.2, lt_of_le_of_lt hb.2 (by norm_num)⟩

/-- Witness for C3 at concrete inputs: a passing evaluation scores 100
and a failing one stays at most 90. -/
theorem calculateReward_constraint_exact_witness :
    (calculateReward "SELECT a FROM t" objEmpty
      { passed := true, feedback := none } none).constraintScore = 100 ∧
    (calculateReward "SELECT a FROM t" objEmpty
      { passed := false, feedback := none } none).constraintScore ≤ 90 := by
  constructor
  · exact (calculateReward_constraint_exact "SELECT a FROM t" objEmpty
      { passed := true, feedback := none } none).1 rfl
  · exact ((calculateReward_constraint_exact "SELECT a FROM t" objEmpty
      { passed := false, feedback := none } none).2 rfl).2.1

/-- C4 (amended): every code path keeps `constraintScore` inside
`[0, 100]`.  The companion counterexample shows the `qualityScore` half
of the original claim is false: the per-join penalty is unbounded. -/
theorem calculateReward_constraintScore_range (sql : String)
    (obj : ObjectiveConfig) (er : EvaluationResult)
    (em : Option ExecutionMetrics) :
    0 ≤ (calculateReward sql obj er em).constraintScore ∧
    (calculateReward sql obj er em).constraintScore ≤ 100 := by
  by_cases h : er.passed
  · simp [calculateReward, h]
  · have hb := calculatePartialCredit_bounds sql obj
    simp only [Bool.not_eq_true] at h
    simp only [calculateReward, h, Bool.false_eq_true, if_false]
    exact ⟨hb.1, hb.2.trans (by norm_num)⟩

/-- Counterexample for C4: a nine-join query is assigned
`qualityScore = -40`, outside every documented signed range
(−30…+30 in the spec, −20…+30 in `types.ts`): the per-join penalty of
`calculateCostBonus` is unbounded below. -/
theorem calculateReward_quality_out_of_range :
    (calculateReward sqlNineJoins objEmpty
      { passed := true, feedback := none } none).qualityScore = -40 ∧
    ¬ (-30 ≤ (calculateReward sqlNineJoins objEmpty
      { passed := true, feedback := none } none).qualityScore) := by
  have hq : (calculateReward sqlNineJoins objEmpty
      { passed := true, feedback := none } none).qualityScore = -40 := by
    norm_num +decide [calculateReward, calculateSimplicityBonus,
      calculateSpecificityBonus, calculateCostBonus,
      show containsCS sqlNineJoins "SELECT *" = true from by decide,
      show subList ("select *".data)
        (sqlNineJoins.data.map Char.toLower) = true from by decide,
      show subList ("where".data)
        (sqlNineJoins.data.map Char.toLower) = false from by decide,
      show subList ("limit".data)
        (sqlNineJoins.data.map Char.toLower) = false from by decide,
      show countJoin (sqlNineJoins.data.map Char.toLower) = 9 from by decide]
  refine ⟨hq, ?_⟩
  rw [hq]
  norm_num

/-! Anchor-absence lemmas for the transformations (claim C9). -/

theorem replaceAggCallsAux_id : ∀ (fuel : ℕ) (l : List Char),
    aggCallTest l = false → replaceAggCallsAux fuel l = l := by
  intro fuel
  induction fuel with
  | zero => intro l _; rfl
  | succ fuel ih =>
    intro l h
    cases l with
    | nil => rfl
    | cons c cs =>
      rw [aggCallTest, Bool.or_eq_false_iff] at h
      have h1 : aggCallAt (c :: cs) = none := by
        rcases hv : aggCallAt (c :: cs) with _ | v
        · rfl
        · rw [hv] at h
          simp at h
      simp only [replaceAggCallsAux, h1]
      exact congrArg (c :: ·) (ih cs h.2)

theorem replaceAggCalls_id (l : List Char) (h : aggCallTest l = false) :
    replaceAggCalls l = l := replaceAggCallsAux_id l.length l h

theorem removeGroupBy_id (l : List Char) (h : scanGroupBy l = none) :
    removeGroupBy l = l := by
  unfold removeGroupBy
  rw [h]

theorem replaceWordCIAux_id (p0 : Char) (ps rep : List Char) :
    ∀ (fuel : ℕ) (prevWord : Bool) (l : List Char),
    wordCIFound p0 ps prevWord l = false →
    replaceWordCIAux p0 ps rep fuel prevWord l = l := by
  intro fuel
  induction fuel with
  | zero => intro prevWord l _; rfl
  | succ fuel ih =>
    intro prevWord l h
    cases l with
    | nil => rfl
    | cons c cs =>
      rw [wordCIFound, Bool.or_eq_false_iff] at h
      simp only [replaceWordCIAux, h.1, Bool.false_eq_true, if_false]
      exact congrArg (c :: ·) (ih (wordChar c) cs h.2)

theorem applyWordReplace_id (pat rep sql : String)
    (h : wordPatFound pat sql = false) :
    applyWordReplace pat rep sql = sql := by
  unfold applyWordReplace
  unfold wordPatFound at h
  rcases hd : pat.data with _ | ⟨p0, ps⟩
  · simp only [hd]
  · rw [hd] at h
    simp only [hd]
    rw [replaceWordCIAux_id p0 ps rep.data sql.data.length false sql.data h]

/-- C9: the driver-facing transformations are plain total functions (no
exception path exists in the model), and each one returns the candidate
unchanged whenever the structural anchor its regex expects is absent:
`NO_OP` always; `ADD_COLUMN`, `REMOVE_COLUMN` and `ADD_AGGREGATION`
without a `SELECT … FROM` shape; `ADD_WHERE_CLAUSE` without a
`FROM <table>` anchor (or with an existing `WHERE`);
`MODIFY_WHERE_OPERATOR` without a `WHERE col = 'value'` anchor;
`REMOVE_WHERE_CLAUSE` without a removable `WHERE` clause;
`REMOVE_AGGREGATION` without an aggregation call or `GROUP BY`;
`ADD_ORDER_BY` when `ORDER BY` is already present; `FIX_ENTITY_COLUMN`
without an entity constraint or without any occurrence of its
incorrect-column patterns. -/
theorem applyAction_total_anchor_unchanged (sql : String)
    (obj : ObjectiveConfig) :
    (applyAction sql NO_OP obj = sql) ∧
    (selectFromSplit sql = none → applyAction sql ADD_COLUMN obj = sql) ∧
    (containsCS sql "SELECT *" = true →
      applyAction sql REMOVE_COLUMN obj = sql) ∧
    (selectFromSplit sql = none → applyAction sql REMOVE_COLUMN obj = sql) ∧
    (containsLower sql "where" = true →
      applyAction sql ADD_WHERE_CLAUSE obj = sql) ∧
    (scanFromWord sql.data = none →
      applyAction sql ADD_WHERE_CLAUSE obj = sql) ∧
    (scanWhereEq sql.data = none →
      applyAction sql MODIFY_WHERE_OPERATOR obj = sql) ∧
    (scanRW sql.data = none →
      applyAction sql REMOVE_WHERE_CLAUSE obj = sql) ∧
    (selectFromSplit sql = none →
      applyAction sql ADD_AGGREGATION obj = sql) ∧
    (aggCallTest sql.data = false → scanGroupBy sql.data = none →
      applyAction sql REMOVE_AGGREGATION obj = sql) ∧
    (containsLower sql "order by" = true →
      applyAction sql ADD_ORDER_BY obj = sql) ∧
    (obj.scope.bind (·.entity) = none →
      applyAction sql FIX_ENTITY_COLUMN obj = sql) ∧
    (wordPatFound "merchant" sql = false →
      wordPatFound "category" sql = false →
      applyAction sql FIX_ENTITY_COLUMN obj = sql) := by
  refine ⟨rfl, ?_, ?_, ?_, ?_, ?_, ?_, ?_, ?_, ?_, ?_, ?_, ?_⟩
  · intro h
    show addColumn sql = sql
    unfold addColumn
    rw [h]
  · intro h
    show removeColumn sql = sql
    unfold removeColumn
    rw [h]
    simp
  · intro h
    show removeColumn sql = sql
    unfold removeColumn
    split
    · rfl
    · rw [h]
  · intro h
    show addWhereClause sql = sql
    unfold addWhereClause
    rw [h]
    simp
  · intro h
    show addWhereClause sql = sql
    unfold addWhereClause
    split
    · rfl
    · rw [h]
  · intro h
    show modifyWhereOperator sql = sql
    unfold modifyWhereOperator
    rw [h]
  · intro h
    show removeWhereClause sql = sql
    unfold removeWhereClause
    rw [h]
  · intro h
    show addAggregation sql = sql
    unfold addAggregation replaceSelectFrom
    rw [h]
  · intro h1 h2
    show removeAggregation sql = sql
    unfold removeAggregation
    rw [replaceAggCalls_id sql.data h1, removeGroupBy_id sql.data h2]
  · intro h
    show addOrderBy sql = sql
    unfold addOrderBy
    rw [h]
    simp
  · intro h
    show fixEntityColumn sql obj = sql
    unfold fixEntityColumn
    rw [h]
  · intro hm hc
    show fixEntityColumn sql obj = sql
    unfold fixEntityColumn
    rcases hsc : obj.scope.bind (·.entity) with _ | e
    · simp only [hsc]
    · simp only [hsc]
      by_cases ht : e.type = ""
      · simp [ht]
      · simp only [ht, if_false]
        rcases hd1 : decide (("merchant" : String) ≠ getEntityColumn e.type)
          with _ | _ <;>
        rcases hd2 : decide (("category" : String) ≠ getEntityColumn e.type)
          with _ | _ <;>
        simp only [List.filter_cons, List.filter_nil, hd1, hd2,
          Bool.false_eq_true, if_true, if_false, List.foldl_cons,
          List.foldl_nil,
          applyWordReplace_id "merchant" (getEntityColumn e.type) sql hm,
          applyWordReplace_id "category" (getEntityColumn e.type) sql hc]

/-! Driver-loop lemmas (claims C1, C5, C6, C7). -/

theorem iterBody_st_decayCalls (env : Env) (obj : ObjectiveConfig)
    (iter : ℕ) (st : LoopState) :
    (iterBody env obj iter st).st.decayCalls = st.decayCalls := rfl

theorem iterBody_logs_shape (env : Env) (obj : ObjectiveConfig)
    (iter : ℕ) (st : LoopState) :
    ∃ lg : IterationLog, (iterBody env obj iter st).st.logs = st.logs ++ [lg] ∧
      lg.converged = (iterBody env obj iter st).conv :=
  ⟨_, rfl, rfl⟩

theorem iterBody_st_logs_len (env : Env) (obj : ObjectiveConfig)
    (iter : ℕ) (st : LoopState) :
    (iterBody env obj iter st).st.logs.length = st.logs.length + 1 := by
  obtain ⟨lg, hl, _⟩ := iterBody_logs_shape env obj iter st
  rw [hl]
  simp

theorem iterBody_genCalls_lb (env : Env) (obj : ObjectiveConfig)
    (iter : ℕ) (st : LoopState) :
    (if iter = 1 then st.genCalls + 1 else st.genCalls) ≤
      (iterBody env obj iter st).st.genCalls := by
  dsimp only [iterBody]
  split_ifs <;> omega

theorem iterBody_exps_shape (env : Env) (obj : ObjectiveConfig)
    (iter : ℕ) (st : LoopState) :
    ∃ e : Experience, (iterBody env obj iter st).st.exps =
      addExperience st.exps e :=
  ⟨_, rfl⟩

theorem optLoop_decayCalls (env : Env) (obj : ObjectiveConfig) (mi : ℕ) :
    ∀ (fuel iter : ℕ) (st : LoopState),
    ((optLoop env obj mi fuel iter st).2).decayCalls = st.decayCalls + 1 := by
  intro fuel
  induction fuel with
  | zero => intro iter st; rfl
  | succ fuel ih =>
    intro iter st
    rw [optLoop]
    by_cases h : (iterBody env obj iter st).conv = true
    · simp only [h, if_true]
      show (iterBody env obj iter st).st.decayCalls + 1 = st.decayCalls + 1
      rw [iterBody_st_decayCalls]
    · simp only [Bool.not_eq_true] at h
      simp only [h, Bool.false_eq_true, if_false]
      rw [ih, iterBody_st_decayCalls]

theorem loopAdvance_shift (env : Env) (obj : ObjectiveConfig) (iter : ℕ)
    (st : LoopState) :
    ∀ j, loopAdvance env obj ((iterBody env obj iter st).st) (iter + 1) j =
      loopAdvance env obj st iter (j + 1) := by
  intro j
  induction j with
  | zero => rfl
  | succ j ih =>
    show (iterBody env obj ((iter + 1) + j) _).st =
      (iterBody env obj (iter + (j + 1)) _).st
    rw [ih, show (iter + 1) + j = iter + (j + 1) from by omega]

theorem loopAdvance_logs_len (env : Env) (obj : ObjectiveConfig)
    (st : LoopState) (iter : ℕ) :
    ∀ d, (loopAdvance env obj st iter d).logs.length = st.logs.length + d := by
  intro d
  induction d with
  | zero => rfl
  | succ d ih =>
    show (iterBody env obj (iter + d) (loopAdvance env obj st iter d)).st.logs.length = _
    rw [iterBody_st_logs_len, ih]
    omega

theorem loopAdvance_logs_all_false (env : Env) (obj : ObjectiveConfig)
    (st : LoopState) (iter : ℕ) :
    ∀ d, (∀ lg ∈ st.logs, lg.converged = false) →
    (∀ j, j < d →
      (iterBody env obj (iter + j) (loopAdvance env obj st iter j)).conv = false) →
    ∀ lg ∈ (loopAdvance env obj st iter d).logs, lg.converged = false := by
  intro d
  induction d with
  | zero => intro hbase _; exact hbase
  | succ d ih =>
    intro hbase hall lg hmem
    obtain ⟨lgd, hl, hcv⟩ :=
      iterBody_logs_shape env obj (iter + d) (loopAdvance env obj st iter d)
    have hmem' : lg ∈ (loopAdvance env obj st iter d).logs ++ [lgd] := by
      rw [← hl]
      exact hmem
    rcases List.mem_append.mp hmem' with hin | hin
    · exact ih hbase (fun j hj => hall j (by omega)) lg hin
    · have : lg = lgd := List.mem_singleton.mp hin
      rw [this, hcv]
      exact hall d (by omega)

theorem optLoop_reaches_convergence (env : Env) (obj : ObjectiveConfig)
    (mi : ℕ) :
    ∀ (d fuel iter : ℕ) (st : LoopState), d < fuel →
    (iterBody env obj (iter + d) (loopAdvance env obj st iter d)).conv = true →
    (∀ j, j < d →
      (iterBody env obj (iter + j) (loopAdvance env obj st iter j)).conv = false) →
    optLoop env obj mi fuel iter st =
      (({ sql := (iterBody env obj (iter + d) (loopAdvance env obj st iter d)).nextSQL
          iterations := iter + d
          finalReward :=
            (iterBody env obj (iter + d) (loopAdvance env obj st iter d)).rewardTotal
          iterationLogs :=
            (iterBody env obj (iter + d) (loopAdvance env obj st iter d)).st.logs },
        { (iterBody env obj (iter + d) (loopAdvance env obj st iter d)).st with
            cfg := decayEpsilon
              (iterBody env obj (iter + d) (loopAdvance env obj st iter d)).st.cfg
            decayCalls :=
              (iterBody env obj (iter + d) (loopAdvance env obj st iter d)).st.decayCalls
                + 1 })) := by
  intro d
  induction d with
  | zero =>
    intro fuel iter st hfuel hconv _
    rcases fuel with _ | fuel
    · omega
    · rw [optLoop]
      have hconv' : (iterBody env obj iter st).conv = true := hconv
      simp only [hconv', if_true]
      rfl
  | succ d ih =>
    intro fuel iter st hfuel hconv hbefore
    rcases fuel with _ | fuel
    · omega
    · rw [optLoop]
      have h0 : (iterBody env obj iter st).conv = false := hbefore 0 (by omega)
      simp only [h0, Bool.false_eq_true, if_false]
      have hconv' : (iterBody env obj ((iter + 1) + d)
          (loopAdvance env obj ((iterBody env obj iter st).st) (iter + 1) d)).conv
          = true := by
        rw [loopAdvance_shift, show (iter + 1) + d = iter + (d + 1) from by omega]
        exact hconv
      have hbefore' : ∀ j, j < d →
          (iterBody env obj ((iter + 1) + j)
            (loopAdvance env obj ((iterBody env obj iter st).st) (iter + 1) j)).conv
            = false := by
        intro j hj
        rw [loopAdvance_shift, show (iter + 1) + j = iter + (j + 1) from by omega]
        exact hbefore (j + 1) (by omega)
      rw [ih fuel (iter + 1) ((iterBody env obj iter st).st) (by omega)
        hconv' hbefore']
      rw [loopAdvance_shift, show (iter + 1) + d = iter + (d + 1) from by omega]

theorem optLoop_exhausts (env : Env) (obj : ObjectiveConfig) (mi : ℕ) :
    ∀ (fuel iter : ℕ) (st : LoopState),
    (∀ j, j < fuel →
      (iterBody env obj (iter + j) (loopAdvance env obj st iter j)).conv = false) →
    optLoop env obj mi fuel iter st =
      (({ sql := (loopAdvance env obj st iter fuel).currentSQL
          iterations := mi
          finalReward := (loopAdvance env obj st iter fuel).finalReward
          iterationLogs := (loopAdvance env obj st iter fuel).logs },
        { (loopAdvance env obj st iter fuel) with
            cfg := decayEpsilon (loopAdvance env obj st iter fuel).cfg
            decayCalls := (loopAdvance env obj st iter fuel).decayCalls + 1 })) := by
  intro fuel
  induction fuel with
  | zero => intro iter st _; rfl
  | succ fuel ih =>
    intro iter st hall
    rw [optLoop]
    have h0 : (iterBody env obj iter st).conv = false := hall 0 (by omega)
    simp only [h0, Bool.false_eq_true, if_false]
    have hall' : ∀ j, j < fuel →
        (iterBody env obj ((iter + 1) + j)
          (loopAdvance env obj ((iterBody env obj iter st).st) (iter + 1) j)).conv
          = false := by
      intro j hj
      rw [loopAdvance_shift, show (iter + 1) + j = iter + (j + 1) from by omega]
      exact hall (j + 1) (by omega)
    rw [ih (iter + 1) ((iterBody env obj iter st).st) hall']
    rw [loopAdvance_shift]

/-- C1: once the convergence predicate
(`passed && semanticsMatch && total >= 100`) first holds at iteration
`i ≤ maxIterations`, the driver returns from iteration `i` with
`iterations = i` and that iteration's candidate, and exactly `i`
iterations were executed (one log entry per executed iteration), so no
iteration `i+1` runs. -/
theorem optimizeSQL_stops_at_convergence (env : Env)
    (obj : ObjectiveConfig) (cfg : QLearningConfig) (qt : QTableL)
    (exps : List Experience) (i : ℕ)
    (h1 : 1 ≤ i) (h2 : i ≤ sessionMaxIterations obj)
    (hconv : convAt env obj (initLoopState cfg qt exps) i = true)
    (hbefore : ∀ k, 1 ≤ k → k < i →
      convAt env obj (initLoopState cfg qt exps) k = false) :
    (optimizeSQL env obj cfg qt exps).1.iterations = i ∧
    (optimizeSQL env obj cfg qt exps).1.sql =
      (iterBody env obj i
        (loopAdvance env obj (initLoopState cfg qt exps) 1 (i - 1))).nextSQL ∧
    (optimizeSQL env obj cfg qt exps).1.iterationLogs.length = i := by
  obtain ⟨d, rfl⟩ : ∃ d, i = 1 + d := ⟨i - 1, by omega⟩
  unfold optimizeSQL
  have hconv' : (iterBody env obj (1 + d)
      (loopAdvance env obj (initLoopState cfg qt exps) 1 d)).conv = true := by
    unfold convAt at hconv
    rw [Nat.add_sub_cancel_left] at hconv
    exact hconv
  have hbefore' : ∀ j, j < d →
      (iterBody env obj (1 + j)
        (loopAdvance env obj (initLoopState cfg qt exps) 1 j)).conv = false := by
    intro j hj
    have := hbefore (1 + j) (by omega) (by omega)
    unfold convAt at this
    rw [Nat.add_sub_cancel_left] at this
    exact this
  rw [optLoop_reaches_convergence env obj (sessionMaxIterations obj) d
    (sessionMaxIterations obj) 1 (initLoopState cfg qt exps) (by omega)
    hconv' hbefore']
  refine ⟨rfl, ?_, ?_⟩
  · rw [Nat.add_sub_cancel_left]
  · show (iterBody env obj (1 + d)
      (loopAdvance env obj (initLoopState cfg qt exps) 1 d)).st.logs.length = 1 + d
    rw [iterBody_st_logs_len, loopAdvance_logs_len]
    simp [initLoopState]
    omega

/-- Witness for C1: with an always-passing evaluator the session over
`objOneIter` converges at iteration 1. -/
theorem optimizeSQL_stops_at_convergence_witness :
    (optimizeSQL envPass objOneIter DEFAULT_CONFIG [] []).1.iterations = 1 ∧
    (optimizeSQL envPass objOneIter DEFAULT_CONFIG [] []).1.sql =
      (iterBody envPass objOneIter 1
        (loopAdvance envPass objOneIter
          (initLoopState DEFAULT_CONFIG [] []) 1 (1 - 1))).nextSQL ∧
    (optimizeSQL envPass objOneIter DEFAULT_CONFIG [] []).1.iterationLogs.length
      = 1 := by
  have hconv : convAt envPass objOneIter
      (initLoopState DEFAULT_CONFIG [] []) 1 = true := by
    norm_num +decide [convAt, loopAdvance, iterBody, initLoopState, envPass,
      objOneIter, selectAction, calculateReward, calculatePartialCredit,
      calculateSimplicityBonus, calculateSpecificityBonus, calculateCostBonus,
      calculateExecutionBonus, validateQuerySemantics, DEFAULT_CONFIG,
      USE_LLM_POLICY, sessionMaxIterations,
      show selectFromSplit "" = none from by decide,
      show countJoin [] = 0 from by decide]
  exact optimizeSQL_stops_at_convergence envPass objOneIter DEFAULT_CONFIG
    [] [] 1 (by omega) (by decide) hconv
    (fun k hk1 hk2 => absurd (Nat.lt_of_lt_of_le hk2 hk1) (by omega))

/-- C6: when the convergence predicate fails at every iteration, the
driver returns normally (it is a total function) after exactly
`maxIterations` iterations, with the last candidate produced,
`iterations = maxIterations`, and every iteration log reporting
`converged = false` — the session's non-converged status. -/
theorem optimizeSQL_exhausted (env : Env) (obj : ObjectiveConfig)
    (cfg : QLearningConfig) (qt : QTableL) (exps : List Experience)
    (hall : ∀ k, 1 ≤ k → k ≤ sessionMaxIterations obj →
      convAt env obj (initLoopState cfg qt exps) k = false) :
    (optimizeSQL env obj cfg qt exps).1.iterations = sessionMaxIterations obj ∧
    (optimizeSQL env obj cfg qt exps).1.sql =
      (loopAdvance env obj (initLoopState cfg qt exps) 1
        (sessionMaxIterations obj)).currentSQL ∧
    (optimizeSQL env obj cfg qt exps).1.iterationLogs.length =
      sessionMaxIterations obj ∧
    ∀ lg ∈ (optimizeSQL env obj cfg qt exps).1.iterationLogs,
      lg.converged = false := by
  have hall' : ∀ j, j < sessionMaxIterations obj →
      (iterBody env obj (1 + j)
        (loopAdvance env obj (initLoopState cfg qt exps) 1 j)).conv = false := by
    intro j hj
    have := hall (1 + j) (by omega) (by omega)
    unfold convAt at this
    rw [Nat.add_sub_cancel_left] at this
    exact this
  unfold optimizeSQL
  rw [optLoop_exhausts env obj (sessionMaxIterations obj)
    (sessionMaxIterations obj) 1 (initLoopState cfg qt exps) hall']
  refine ⟨rfl, rfl, ?_, ?_⟩
  · rw [loopAdvance_logs_len]
    simp [initLoopState]
  · exact loopAdvance_logs_all_false env obj (initLoopState cfg qt exps) 1
      (sessionMaxIterations obj) (by simp [initLoopState]) hall'

/-- Witness for C6: with an always-failing evaluator the one-iteration
session exhausts without converging. -/
theorem optimizeSQL_exhausted_witness :
    (optimizeSQL envFail objOneIter DEFAULT_CONFIG [] []).1.iterations = 1 ∧
    (optimizeSQL envFail objOneIter DEFAULT_CONFIG [] []).1.sql =
      (loopAdvance envFail objOneIter
        (initLoopState DEFAULT_CONFIG [] []) 1 1).currentSQL ∧
    (optimizeSQL envFail objOneIter DEFAULT_CONFIG [] []).1.iterationLogs.length
      = 1 ∧
    ∀ lg ∈ (optimizeSQL envFail objOneIter DEFAULT_CONFIG [] []).1.iterationLogs,
      lg.converged = false := by
  have hfail : ∀ k, 1 ≤ k → k ≤ sessionMaxIterations objOneIter →
      convAt envFail objOneIter (initLoopState DEFAULT_CONFIG [] []) k
        = false := by
    intro k hk1 hk2
    have hk : k = 1 := by
      have : sessionMaxIterations objOneIter = 1 := by decide
      omega
    subst hk
    have : (iterBody envFail objOneIter 1
        (initLoopState DEFAULT_CONFIG [] [])).conv = false := by
      unfold iterBody
      rfl
    exact this
  exact optimizeSQL_exhausted envFail objOneIter DEFAULT_CONFIG [] [] hfail

/-- C7: `decayEpsilon` performs
`epsilon := max(epsilonMin, epsilon * epsilonDecay)` and is invoked
exactly once per completed session — on the converged and the exhausted
exit alike, never per iteration — and after `N ≥ 1` decay calls the
exploration rate equals `max(epsilonMin, epsilon0 * epsilonDecay^N)`
(for the decreasing decay configurations the engine uses:
`0 ≤ epsilonMin`, `0 ≤ epsilonDecay ≤ 1`). -/
theorem decayEpsilon_once_per_session :
    (∀ (env : Env) (objective : ObjectiveConfig) (cfg : QLearningConfig)
        (qt : QTableL) (exps : List Experience),
      (optimizeSQL env objective cfg qt exps).2.decayCalls = 1) ∧
    (∀ (cfg : QLearningConfig) (N : ℕ), 1 ≤ N → 0 ≤ cfg.epsilonMin →
      0 ≤ cfg.epsilonDecay → cfg.epsilonDecay ≤ 1 →
      (decayEpsilon^[N] cfg).epsilon =
        max cfg.epsilonMin (cfg.epsilon * cfg.epsilonDecay ^ N)) := by
  constructor
  · intro env objective cfg qt exps
    unfold optimizeSQL
    rw [optLoop_decayCalls]
    rfl
  · exact decayEpsilon_iterate_epsilon

/-- Witness for C7 at concrete inputs. -/
theorem decayEpsilon_once_per_session_witness :
    (optimizeSQL envPass objOneIter DEFAULT_CONFIG [] []).2.decayCalls = 1 ∧
    (decayEpsilon^[2] DEFAULT_CONFIG).epsilon =
      max DEFAULT_CONFIG.epsilonMin
        (DEFAULT_CONFIG.epsilon * DEFAULT_CONFIG.epsilonDecay ^ 2) :=
  ⟨decayEpsilon_once_per_session.1 envPass objOneIter DEFAULT_CONFIG [] [],
    decayEpsilon_once_per_session.2 DEFAULT_CONFIG 2 (by omega)
      (by norm_num [DEFAULT_CONFIG]) (by norm_num [DEFAULT_CONFIG])
      (by norm_num [DEFAULT_CONFIG])⟩

/-- C5 (code bug): `validateObjective` reports the objective `objBad`
(missing `successCriteria`) as invalid, yet `optimizeSQL` performs no
validation at all — `validateObjective` has no caller — so for every
environment the generator is invoked, an experience is recorded, and the
session runs its iteration and returns normally instead of failing
fast. -/
theorem malformedObjective_not_failfast (env : Env)
    (cfg : QLearningConfig) (qt : QTableL) :
    (validateObjective objBad).1 = false ∧
    1 ≤ (optimizeSQL env objBad cfg qt []).2.genCalls ∧
    (optimizeSQL env objBad cfg qt []).2.exps.length = 1 ∧
    (optimizeSQL env objBad cfg qt []).1.iterations = 1 := by
  have hvalid : (validateObjective objBad).1 = false := by decide
  have hmi : sessionMaxIterations objBad = 1 := rfl
  set st0 := initLoopState cfg qt [] with hst0
  have hgen : 1 ≤ (iterBody env objBad 1 st0).st.genCalls := by
    have h := iterBody_genCalls_lb env objBad 1 st0
    rw [if_pos rfl] at h
    have hz : st0.genCalls = 0 := rfl
    omega
  have hexps : (iterBody env objBad 1 st0).st.exps.length = 1 := by
    obtain ⟨e, he⟩ := iterBody_exps_shape env objBad 1 st0
    rw [he]
    have hz : st0.exps = [] := rfl
    rw [hz]
    rfl
  unfold optimizeSQL
  rw [hmi, ← hst0]
  rw [optLoop]
  by_cases h : (iterBody env objBad 1 st0).conv = true
  · simp only [h, if_true]
    exact ⟨hvalid, hgen, hexps, by trivial⟩
  · simp only [Bool.not_eq_true] at h
    simp only [h, Bool.false_eq_true, if_false]
    rw [optLoop]
    exact ⟨hvalid, hgen, hexps, by trivial⟩

/-- Witness for C9 on a candidate with none of the structural
anchors. -/
theorem applyAction_total_anchor_unchanged_witness :
    applyAction "xyz" ADD_COLUMN objEmpty = "xyz" ∧
    applyAction "xyz" MODIFY_WHERE_OPERATOR objEmpty = "xyz" ∧
    applyAction "xyz" REMOVE_WHERE_CLAUSE objEmpty = "xyz" ∧
    applyAction "xyz" FIX_ENTITY_COLUMN objEmpty = "xyz" := by
  refine ⟨?_, ?_, ?_, ?_⟩
  · exact (applyAction_total_anchor_unchanged "xyz" objEmpty).2.1 (by decide)
  · exact (applyAction_total_anchor_unchanged "xyz"
      objEmpty).2.2.2.2.2.2.1 (by decide)
  · exact (applyAction_total_anchor_unchanged "xyz"
      objEmpty).2.2.2.2.2.2.2.1 (by decide)
  · exact (applyAction_total_anchor_unchanged "xyz"
      objEmpty).2.2.2.2.2.2.2.2.2.2.2.1 (by decide)

end RLSql
